import Mathlib

/-!
Shallow embedding of the kamino_liquidator event-stream ingestion core
(`src/listener.rs`, `src/src/price_listener.rs`, `src/src/kamino.rs`) and
proofs of the specified properties.

Modelling conventions:
* raw account bytes are `List Nat` (each entry one byte);
* Solana `Pubkey` values are modelled as `Nat` (`Pubkey::default()` is `0`);
* `u64`/`u32`/`i64`/`i32` little-endian field reads are explicit;
* `f64` arithmetic of the reserve price-change formula is modelled by `FVal`,
  rationals extended with infinities and NaN following the IEEE special-value
  rules (finite arithmetic is exact, which is adequate for the properties
  proved here, all of which concern the shape of the formula and its
  special values);
* panics (`unwrap` on a missing map key) are modelled as an `Except.error`
  result carrying the untouched state, since a panic aborts the handler task
  before any write to shared state.
-/

/-! ## Byte-level readers (little endian) -/

/-- Little-endian value of a list of bytes: `b0 + 256*(b1 + 256*(...))`. -/
def leBytes (bs : List Nat) : Nat :=
  bs.foldr (fun b acc => b + 256 * acc) 0

/-- Read `n` bytes at byte offset `off` of `data`, little endian. -/
def readLE (data : List Nat) (off n : Nat) : Nat :=
  leBytes ((data.drop off).take n)

/-- Reinterpret an unsigned 64-bit value as a signed one (two's complement). -/
def toSigned64 (v : Nat) : Int :=
  if v < 2 ^ 63 then (v : Int) else (v : Int) - 2 ^ 64

/-- Reinterpret an unsigned 32-bit value as a signed one (two's complement). -/
def toSigned32 (v : Nat) : Int :=
  if v < 2 ^ 31 then (v : Int) else (v : Int) - 2 ^ 32

/-! ## Oracle price store (`src/src/price_listener.rs`) -/

/-- `TokenPrice` from `price_listener.rs`.  The `last_updated` wall-clock
timestamp is modelled as a `Nat` supplied by the caller (`Utc::now()`). -/
structure TokenPrice where
  mint : String
  symbol : String
  price : ℚ
  confidence : ℚ
  last_updated : Nat
  status : String
deriving Repr, DecidableEq

/-- `get_token_symbol` from `price_listener.rs`: pure lookup table from mint
to display symbol, unknown mints resolve to the sentinel "UNKNOWN". -/
def get_token_symbol (mint : String) : String :=
  if mint = "So11111111111111111111111111111111111111112" then "SOL"
  else if mint = "EPjFWdd5AufqSSqeM2qN1xzybapC8G4wEGGkZwyTDt1v" then "USDC"
  else if mint = "Es9vMFrzaCERmJfrF4H2FYD4KCoNkY11McCe8BenwNYB" then "USDT"
  else if mint = "mSoLzYCxHdYgdzU16g5QSh3i5K3z3KZK7ytfqcJm7So" then "mSOL"
  else if mint = "J1toso1uCk3RLmjorhTtrVwY9HJ7X8V9yYac6Y7kGCPn" then "jitoSOL"
  else if mint = "bSo13r4TkiE4KumL71LsHTPpL2euBYLFx6h9HP3piy1" then "bSOL"
  else if mint = "7vfCXTUXx5WJV5JADk17DUJ4ksgau7utNKj4b963voxs" then "ETH"
  else if mint = "9n4nbM75f5Ui33ZbPYXn59EwSgE8CGsHtAeTH5YFeJ9E" then "BTC"
  else if mint = "2b1kV6DkPAnxd5ixfnxCpjxmKwqjjaYmCZfHsFu24GXo" then "WBTC"
  else if mint = "3NZ9JMVBmGAqocybic2c7LQCJScmgsAZ6vQqTDzcqmJh" then "WETH"
  else if mint = "jtojtomepa8beP8AuQc6eXt5FriJwfFMwQx2v2f9mCL" then "JTO"
  else if mint = "JUPyiwrYJFskUPiHa7hkeR8VUtAeFoSYbKedZNsDvCN" then "JUP"
  else if mint = "USDSwr9ApdHk5bvJKMjzff41FfuX8bSxdKcR81vTwcA" then "USDS"
  else if mint = "HzwqbKZw8HxMN6bF2yFZNrht3c2iXXzpKcFu7uBEDKtr" then "KMNO"
  else if mint = "Dso1bDeDjCQxTrWHqUUi63oBvV7Mdm6WaobLbQ7gnPQ" then "DJUM"
  else if mint = "cbbtcf3aa214zXHbiAZQwf4122FBYbraNdFqgw4iMij" then "camSOL"
  else if mint = "BNso1VUJnh4zcfpZa6986Ea66P6TCp59hvtNJ8b1X85" then "BNSOL"
  else if mint = "2u1tszSeqZ3qBWF3uNGPFc8TzMk2tdiwknnRMWGWjGWH" then "WFDUSD"
  else if mint = "6DNSN2BJsaPFdFFc1zP37kkeNe4Usc1Sqkzr9C9vPWcU" then "TNSR"
  else if mint = "9zNQRsGLjNKwCUU5Gq5LR8beUCPzQMVMqKAi3SSZh54u" then "INF"
  else if mint = "27G8MtK7VtTcCHkpASjSDdkWWYfoqT6ggEuKidVJidD4" then "JLP"
  else "UNKNOWN"

/-- Status code read at offset 232 (4-byte little-endian `u32`). -/
def pythStatus (data : List Nat) : Nat := readLE data 232 4

/-- Price mantissa read at offset 208 (8-byte little-endian `i64`). -/
def pythPriceRaw (data : List Nat) : Int := toSigned64 (readLE data 208 8)

/-- Exponent read at offset 216 (4-byte little-endian `i32`). -/
def pythExpo (data : List Nat) : Int := toSigned32 (readLE data 216 4)

/-- Confidence mantissa read at offset 224 (8-byte little-endian `u64`). -/
def pythConfRaw (data : List Nat) : Nat := readLE data 224 8

/-- The computed oracle price `mantissa * 10^exponent`, exact.  Models
`(price_raw as f64) * 10f64.powi(expo)` in `parse_real_pyth_price_account`. -/
def pythComputedPrice (data : List Nat) : ℚ :=
  (pythPriceRaw data : ℚ) * (10 : ℚ) ^ (pythExpo data)

/-- The computed confidence `conf_mantissa * 10^exponent`, exact. -/
def pythComputedConf (data : List Nat) : ℚ :=
  (pythConfRaw data : ℚ) * (10 : ℚ) ^ (pythExpo data)

/-- `parse_real_pyth_price_account` from `price_listener.rs`:
defensive fixed-offset decode of a 240-byte Pyth price account.
`now` stands for the `Utc::now()` timestamp taken at decode time. -/
def parse_real_pyth_price_account (data : List Nat) (mint : String) (now : Nat) :
    Option TokenPrice :=
  if data.length < 240 then none
  else if data.length < 232 + 4 then none
  else
    let status := pythStatus data
    if status ≠ 1 then
      some { mint := mint
             symbol := get_token_symbol mint
             price := 0
             confidence := 0
             last_updated := now
             status := "Non-Trading (status: " ++ toString status ++ ")" }
    else
      let price_raw := pythPriceRaw data
      let expo := pythExpo data
      let conf_raw := pythConfRaw data
      if price_raw = 0 then none
      else
        let price : ℚ := (price_raw : ℚ) * (10 : ℚ) ^ expo
        let confidence : ℚ := (conf_raw : ℚ) * (10 : ℚ) ^ expo
        if 0 < price ∧ price < 10000000 then
          some { mint := mint
                 symbol := get_token_symbol mint
                 price := price
                 confidence := confidence
                 last_updated := now
                 status := "REAL Pyth Live" }
        else none

/-- Observable notices emitted by `PriceListener::handle_update`:
a change notice with the signed percentage delta, or a first-observation
notice. -/
inductive PriceNotice where
  | change (pct : ℚ)
  | firstObservation
deriving Repr, DecidableEq

/-- The global `PRICE_STATE` map, keyed by mint. -/
def PriceState : Type := String → Option TokenPrice

/-- `PriceListener::handle_update` from `price_listener.rs`, restricted to a
delivered account update already resolved to its `mint` (the
`account_to_mint` lookup): parse the bytes; on success always overwrite the
stored record, then emit a change notice when a previous price existed and
moved by more than 0.001, a first-observation notice when none existed, and
nothing otherwise.  On parse failure the state is untouched. -/
def price_handle_update (st : PriceState) (mint : String) (data : List Nat)
    (now : Nat) : PriceState × Option PriceNotice :=
  match parse_real_pyth_price_account data mint now with
  | none => (st, none)
  | some info =>
    let old_price := (st mint).map (fun e => e.price)
    let st' : PriceState := fun m => if m = mint then some info else st m
    match old_price with
    | some old =>
      if |old - info.price| > 1 / 1000 then
        (st', some (PriceNotice.change (((info.price - old) / old) * 100)))
      else
        (st', none)
    | none => (st', some PriceNotice.firstObservation)

/-! ## IEEE special-value arithmetic model for the reserve price formula -/

/-- An `f64` value as used by the reserve price-change computation: a finite
rational (exact; rounding is immaterial to the properties proved here), a
signed infinity, or NaN.  Zero is unsigned: every zero arising in this code
is a cast of an unsigned integer, hence `+0`. -/
inductive FVal where
  | fin (q : ℚ)
  | inf
  | neginf
  | nan
deriving Repr, DecidableEq

/-- Cast of a `u64` reserve amount to `f64`. -/
def FVal.ofAmount (n : Nat) : FVal := FVal.fin (n : ℚ)

/-- IEEE division.  Division of a nonzero finite by (unsigned) zero gives a
signed infinity, `0/0` and `inf/inf` give NaN. -/
def FVal.div : FVal → FVal → FVal
  | FVal.fin a, FVal.fin b =>
    if b = 0 then
      if a > 0 then FVal.inf else if a < 0 then FVal.neginf else FVal.nan
    else FVal.fin (a / b)
  | FVal.fin _, FVal.inf => FVal.fin 0
  | FVal.fin _, FVal.neginf => FVal.fin 0
  | FVal.inf, FVal.fin b => if b < 0 then FVal.neginf else FVal.inf
  | FVal.neginf, FVal.fin b => if b < 0 then FVal.inf else FVal.neginf
  | FVal.inf, FVal.inf => FVal.nan
  | FVal.inf, FVal.neginf => FVal.nan
  | FVal.neginf, FVal.inf => FVal.nan
  | FVal.neginf, FVal.neginf => FVal.nan
  | FVal.nan, _ => FVal.nan
  | _, FVal.nan => FVal.nan

/-- IEEE subtraction on the model. -/
def FVal.sub : FVal → FVal → FVal
  | FVal.fin a, FVal.fin b => FVal.fin (a - b)
  | FVal.fin _, FVal.inf => FVal.neginf
  | FVal.fin _, FVal.neginf => FVal.inf
  | FVal.inf, FVal.fin _ => FVal.inf
  | FVal.neginf, FVal.fin _ => FVal.neginf
  | FVal.inf, FVal.inf => FVal.nan
  | FVal.inf, FVal.neginf => FVal.inf
  | FVal.neginf, FVal.inf => FVal.neginf
  | FVal.neginf, FVal.neginf => FVal.nan
  | FVal.nan, _ => FVal.nan
  | _, FVal.nan => FVal.nan

/-- IEEE multiplication on the model (used to scale by `100.0`). -/
def FVal.mul : FVal → FVal → FVal
  | FVal.fin a, FVal.fin b => FVal.fin (a * b)
  | FVal.fin a, FVal.inf =>
    if a > 0 then FVal.inf else if a < 0 then FVal.neginf else FVal.nan
  | FVal.fin a, FVal.neginf =>
    if a > 0 then FVal.neginf else if a < 0 then FVal.inf else FVal.nan
  | FVal.inf, FVal.fin b =>
    if b > 0 then FVal.inf else if b < 0 then FVal.neginf else FVal.nan
  | FVal.neginf, FVal.fin b =>
    if b > 0 then FVal.neginf else if b < 0 then FVal.inf else FVal.nan
  | FVal.inf, FVal.inf => FVal.inf
  | FVal.inf, FVal.neginf => FVal.neginf
  | FVal.neginf, FVal.inf => FVal.neginf
  | FVal.neginf, FVal.neginf => FVal.inf
  | FVal.nan, _ => FVal.nan
  | _, FVal.nan => FVal.nan

/-- Whether an `FVal` is a finite number (not infinite, not NaN). -/
def FVal.isFinite : FVal → Bool
  | FVal.fin _ => true
  | _ => false

/-! ## Reserve synchronization store (`ReserveListener` in `src/listener.rs`) -/

/-- The fields of `Pool` that `ReserveListener::handle_update` touches:
identity of the two reserve vaults, the two mints, and the two reserve
amounts (`u64` raw token units). -/
structure Pool where
  base_vault : Nat
  quote_vault : Nat
  mint_a : Nat
  mint_b : Nat
  mint_a_reserve : Nat
  mint_b_reserve : Nat
deriving Repr, DecidableEq

/-- The `PairSettled` outcome of a completed two-sided update: the pool
snapshot taken under the lock, the price-change percentage, and the
trading-pair key handed to the evaluation dispatch. -/
structure PairSettled where
  pool_snapshot : Pool
  price_change_pct : FVal
  pair_key : Nat × Nat
deriving Repr, DecidableEq

/-- The per-pool state of a `ReserveListener`: the tracked pool (guarded by
its own lock in the source) and the `last_updated` flag map, true for a
vault that has received an update since the last barrier reset. -/
structure ReserveState where
  pool : Pool
  last_updated : Nat → Bool

/-- The token-account amount field: 8-byte little-endian `u64` at offset 64
of the raw account bytes (the unsafe pointer read in `handle_update`). -/
def tokenAccountAmount (data : List Nat) : Nat := readLE data 64 8

/-- The price-change percentage formula of `ReserveListener::handle_update`:
`((new_b/new_a) - (old_b/old_a)) / (old_b/old_a) * 100` in `f64`. -/
def priceChangePct (oldA oldB newA newB : Nat) : FVal :=
  let old_price := FVal.div (FVal.ofAmount oldB) (FVal.ofAmount oldA)
  let new_price := FVal.div (FVal.ofAmount newB) (FVal.ofAmount newA)
  FVal.mul (FVal.div (FVal.sub new_price old_price) old_price) (FVal.fin 100)

/-- `ReserveListener::handle_update` from `src/listener.rs` for an account
update to `vault` carrying `data`:

* an update for a vault absent from the Vault-to-Pool index panics on
  `unwrap` — modelled as an `Except.error` paired with the untouched state;
* otherwise, under the pool lock: overwrite the side of the pool whose vault
  matches, compute the price-change percentage from the old and new reserve
  amounts, snapshot the pool; then set the `last_updated` flag for `vault`,
  and if both of the pool's flags are now true, reset both and settle the
  pair (the arbitrage-evaluation dispatch). -/
def reserve_handle_update (s : ReserveState) (vault : Nat) (data : List Nat) :
    ReserveState × Except String (Option PairSettled) :=
  if vault ≠ s.pool.base_vault ∧ vault ≠ s.pool.quote_vault then
    (s, Except.error "vault_to_pool_map.get_mut returned None: unwrap panicked")
  else
    let amount := tokenAccountAmount data
    let old_mint_a := s.pool.mint_a_reserve
    let old_mint_b := s.pool.mint_b_reserve
    let pool' :=
      if s.pool.base_vault = vault then { s.pool with mint_a_reserve := amount }
      else if s.pool.quote_vault = vault then { s.pool with mint_b_reserve := amount }
      else s.pool
    let pct := priceChangePct old_mint_a old_mint_b
      pool'.mint_a_reserve pool'.mint_b_reserve
    let flags1 : Nat → Bool := fun w => if w = vault then true else s.last_updated w
    if flags1 pool'.base_vault && flags1 pool'.quote_vault then
      let flags2 : Nat → Bool := fun w =>
        if w = pool'.base_vault ∨ w = pool'.quote_vault then false else flags1 w
      ({ pool := pool', last_updated := flags2 },
       Except.ok (some { pool_snapshot := pool'
                         price_change_pct := pct
                         pair_key := (pool'.mint_a, pool'.mint_b) }))
    else
      ({ pool := pool', last_updated := flags1 }, Except.ok none)

/-! ## Reconnecting stream driver (`Listener::start` in `src/listener.rs` and
`start_price_listener` in `src/src/price_listener.rs`) -/

/-- Observable events of one driver instance: a numbered connection attempt,
the events of a successfully established session, and the fixed backoff
sleep between consecutive attempts (`retry_delay.as_secs()` seconds). -/
inductive DriverEvent where
  | connectAttempt (n : Nat)
  | session (n : Nat)
  | sleepBackoff (secs : Nat)
deriving Repr, DecidableEq

/-- The retry loop shared by `Listener::start` and `start_price_listener`:
starting from attempt counter `attempt`, each iteration increments the
counter, attempts to connect (`connectOk` tells whether attempt `n`
succeeds; a successful connect runs a session whose internals are opaque
here), then breaks permanently once `attempt >= max_retries`, otherwise
sleeps the fixed backoff and loops.  The loop always terminates because the
counter increases on every iteration. -/
def driver_retry_loop (connectOk : Nat → Bool) (maxRetries retryDelaySecs : Nat)
    (attempt : Nat) : List DriverEvent :=
  let a := attempt + 1
  let evs :=
    DriverEvent.connectAttempt a ::
      (if connectOk a then [DriverEvent.session a] else [])
  if _h : maxRetries ≤ a then evs
  else
    evs ++ DriverEvent.sleepBackoff retryDelaySecs ::
      driver_retry_loop connectOk maxRetries retryDelaySecs a
termination_by maxRetries - attempt
decreasing_by
  omega

/-- `Listener::start` / `start_price_listener` event trace: the loop entered
with `attempt = 0`, `max_retries = 5`, `retry_delay = 2` seconds. -/
def listener_start_events (connectOk : Nat → Bool) : List DriverEvent :=
  driver_retry_loop connectOk 5 2 0

/-- Number of connection attempts in a driver event trace. -/
def countConnectAttempts (evs : List DriverEvent) : Nat :=
  (evs.filter (fun e => match e with
    | DriverEvent.connectAttempt _ => true
    | _ => false)).length

/-! ## Sub-object (tick-array) cache (`OrcaTickArrayListener` in
`src/listener.rs`) -/

/-- `OrcaTickArrayListener::handle_update`: borsh-decode the raw bytes
(`TickArray::try_from_slice`, abstracted here as the `decode` parameter
since the `TickArray` layout lives outside the ingestion core); on success
insert the decoded record at the account key (last-write-wins overwrite);
on failure drop the update, leaving the cache untouched. -/
def tick_handle_update {α : Type} (decode : List Nat → Option α)
    (cache : Nat → Option α) (key : Nat) (data : List Nat) : Nat → Option α :=
  match decode data with
  | some tick_array => fun k => if k = key then some tick_array else cache k
  | none => cache

/-! ## Kamino obligations (`src/src/kamino.rs`) -/

/-- `ObligationCollateral` (deposit leg), fields relevant to the embedded
operations; `Pubkey` is a `Nat`, `Pubkey::default()` is `0`. -/
structure ObligationCollateral where
  deposit_reserve : Nat
  deposited_amount : Nat
  market_value_sf : Nat
deriving Repr, DecidableEq

/-- `ObligationLiquidity` (borrow leg), fields relevant to the embedded
operations. -/
structure ObligationLiquidity where
  borrow_reserve : Nat
  borrowed_amount_sf : Nat
  market_value_sf : Nat
deriving Repr, DecidableEq

/-- `Obligation`, restricted to the deposit and borrow legs that
`get_reserve_addresses` reads (the source holds fixed-size arrays of 8
deposits and 5 borrows; the list lengths are irrelevant to the property). -/
structure Obligation where
  deposits : List ObligationCollateral
  borrows : List ObligationLiquidity
deriving Repr, DecidableEq

/-- Rust `Vec::dedup`: remove consecutive repeated elements. -/
def dedupConsec : List Nat → List Nat
  | [] => []
  | [a] => [a]
  | a :: b :: rest =>
    if a = b then dedupConsec (b :: rest) else a :: dedupConsec (b :: rest)

/-- `Obligation::get_reserve_addresses`: collect the non-default deposit
and borrow reserve addresses, sort, and remove duplicates. -/
def Obligation.get_reserve_addresses (ob : Obligation) : List Nat :=
  let result :=
    (ob.deposits.filter (fun d => d.deposit_reserve ≠ 0)).map
        (fun d => d.deposit_reserve) ++
      (ob.borrows.filter (fun b => b.borrow_reserve ≠ 0)).map
        (fun b => b.borrow_reserve)
  dedupConsec (List.insertionSort (· ≤ ·) result)

/-- The reserve price-change formula factored through its two operands
`op = old_b/old_a` and `np = new_b/new_a`: `(np - op) / op * 100`. -/
def pctOf (op np : FVal) : FVal :=
  FVal.mul (FVal.div (FVal.sub np op) op) (FVal.fin 100)

set_option maxRecDepth 20000

/-- A concrete 240-byte trading oracle payload: status 1 at offset 232,
price mantissa 5 at offset 208, exponent 0, confidence mantissa 2. -/
def pythTestBytes : List Nat :=
  (((List.replicate 240 0).set 232 1).set 208 5).set 224 2

/-- The record `pythTestBytes` decodes to at timestamp 7. -/
def pythTestRecord : TokenPrice :=
  { mint := "m", symbol := "UNKNOWN", price := 5, confidence := 2,
    last_updated := 7, status := "REAL Pyth Live" }

/-! ## Theorems -/

/-- C2: an account update for a vault absent from the Vault-to-Pool Index is
surfaced loudly — the handler hits the `unwrap` panic (modelled as an
`Except.error` carrying the panic message) rather than returning silently —
and the stored pool state (pool fields and `last_updated` flags alike) is
left completely unchanged, so recovery cannot silently corrupt it. -/
theorem untracked_vault_is_loud_and_preserves_state (s : ReserveState) (v : Nat)
    (d : List Nat) (h : v ≠ s.pool.base_vault ∧ v ≠ s.pool.quote_vault) :
    reserve_handle_update s v d =
      (s, Except.error "vault_to_pool_map.get_mut returned None: unwrap panicked") ∧
    (reserve_handle_update s v d).1 = s ∧
    ∀ r, (reserve_handle_update s v d).2 ≠ Except.ok r := by
  have hmain : reserve_handle_update s v d =
      (s, Except.error "vault_to_pool_map.get_mut returned None: unwrap panicked") := by
    unfold reserve_handle_update
    rw [if_pos h]
  refine ⟨hmain, by rw [hmain], ?_⟩
  intro r hr
  rw [hmain] at hr
  exact Except.noConfusion hr

/-- Witness for C2 at a concrete pool and an untracked vault 99. -/
theorem untracked_vault_is_loud_and_preserves_state_witness :
    reserve_handle_update ⟨⟨1, 2, 10, 11, 1000, 2000⟩, fun _ => false⟩ 99 [] =
      (⟨⟨1, 2, 10, 11, 1000, 2000⟩, fun _ => false⟩,
       Except.error "vault_to_pool_map.get_mut returned None: unwrap panicked") :=
  (untracked_vault_is_loud_and_preserves_state
    ⟨⟨1, 2, 10, 11, 1000, 2000⟩, fun _ => false⟩ 99 []
    ⟨by decide, by decide⟩).1

/-- C9: a tick-array cache update whose decode fails leaves the whole cache
unchanged; a successful decode overwrites exactly the entry at the updated
key with the decoded record and modifies no other entry. -/
theorem tick_cache_update_frame {α : Type} (decode : List Nat → Option α)
    (cache : Nat → Option α) (key : Nat) (data : List Nat) :
    (decode data = none → tick_handle_update decode cache key data = cache) ∧
    ∀ ta, decode data = some ta →
      tick_handle_update decode cache key data key = some ta ∧
      ∀ k, k ≠ key → tick_handle_update decode cache key data k = cache k := by
  constructor
  · intro hnone
    unfold tick_handle_update
    rw [hnone]
  · intro ta hsome
    unfold tick_handle_update
    rw [hsome]
    exact ⟨by simp, fun k hk => by simp [hk]⟩

/-- Witness for C9 with the head-byte decoder on concrete inputs. -/
theorem tick_cache_update_frame_witness :
    tick_handle_update (fun l => l.head?) (fun _ => (none : Option Nat)) 3 [7] 3 =
        some 7 ∧
    tick_handle_update (fun l => l.head?) (fun _ => (none : Option Nat)) 3 [7] 4 =
        none := by
  have h := (tick_cache_update_frame (fun l => l.head?)
    (fun _ => (none : Option Nat)) 3 [7]).2 7 rfl
  exact ⟨h.1, h.2 4 (by decide)⟩

/-- C7: decoding an oracle account payload is a pure function of the input
bytes and asset identifier — two decodes of the same bytes (even at
different wall-clock instants) agree on success/failure and on the decoded
price, confidence and status. -/
theorem pyth_decode_is_pure (data : List Nat) (mint : String) (now₁ now₂ : Nat) :
    (parse_real_pyth_price_account data mint now₁).map
        (fun r => (r.price, r.confidence, r.status)) =
      (parse_real_pyth_price_account data mint now₂).map
        (fun r => (r.price, r.confidence, r.status)) := by
  unfold parse_real_pyth_price_account
  dsimp only
  repeat' split <;> try rfl

/-- Witness for C7 on a concrete all-zero 240-byte payload. -/
theorem pyth_decode_is_pure_witness :
    (parse_real_pyth_price_account (List.replicate 240 0) "m" 3).map
        (fun r => (r.price, r.confidence, r.status)) =
      (parse_real_pyth_price_account (List.replicate 240 0) "m" 4).map
        (fun r => (r.price, r.confidence, r.status)) :=
  pyth_decode_is_pure (List.replicate 240 0) "m" 3 4

/-- `pythTestBytes` decodes through the trading branch to `pythTestRecord`. -/
lemma parse_pythTestBytes :
    parse_real_pyth_price_account pythTestBytes "m" 7 = some pythTestRecord := by
  have hst : pythStatus pythTestBytes = 1 := by decide
  have hraw : pythPriceRaw pythTestBytes = 5 := by decide
  have hexpo : pythExpo pythTestBytes = 0 := by decide
  have hconf : pythConfRaw pythTestBytes = 2 := by decide
  unfold parse_real_pyth_price_account
  rw [if_neg (by decide), if_neg (by decide), if_neg (by simp [hst])]
  dsimp only
  rw [hraw, hexpo, hconf]
  norm_num [pythTestRecord]
  rfl

/-- C5: an oracle payload of at least 240 bytes whose little-endian status
at offset 232 is not 1 decodes to a record with price 0 and the descriptive
status string carrying the status code, and the handler stores that record
for the asset rather than rejecting the update. -/
theorem non_trading_is_stored (st : PriceState) (mint : String) (data : List Nat)
    (now : Nat) (hlen : 240 ≤ data.length) (hst : pythStatus data ≠ 1) :
    parse_real_pyth_price_account data mint now =
      some { mint := mint, symbol := get_token_symbol mint, price := 0,
             confidence := 0, last_updated := now,
             status := "Non-Trading (status: " ++ toString (pythStatus data) ++ ")" } ∧
    (price_handle_update st mint data now).1 mint =
      some { mint := mint, symbol := get_token_symbol mint, price := 0,
             confidence := 0, last_updated := now,
             status := "Non-Trading (status: " ++ toString (pythStatus data) ++ ")" } := by
  have hp : parse_real_pyth_price_account data mint now =
      some { mint := mint, symbol := get_token_symbol mint, price := 0,
             confidence := 0, last_updated := now,
             status := "Non-Trading (status: " ++ toString (pythStatus data) ++ ")" } := by
    unfold parse_real_pyth_price_account
    rw [if_neg (by omega), if_neg (by omega), if_pos hst]
  refine ⟨hp, ?_⟩
  unfold price_handle_update
  rw [hp]
  dsimp only
  cases hso : st mint with
  | none => simp
  | some old => split <;> first | (split_ifs <;> simp) | simp

/-- Witness for C5 on the all-zero 240-byte payload (status code 0). -/
theorem non_trading_is_stored_witness :
    parse_real_pyth_price_account (List.replicate 240 0) "m" 0 =
      some { mint := "m", symbol := get_token_symbol "m", price := 0,
             confidence := 0, last_updated := 0,
             status := "Non-Trading (status: " ++
               toString (pythStatus (List.replicate 240 0)) ++ ")" } :=
  (non_trading_is_stored (fun _ => none) "m" (List.replicate 240 0) 0
    (by decide) (by decide)).1

/-- C4 (amended): a payload shorter than 240 bytes, or a trading-status
(code 1) payload whose price mantissa is zero, or a trading-status payload
whose computed price `mantissa * 10^exponent` is ≤ 0 or ≥ 10,000,000,
decodes to nothing: the handler stores no update for the asset and emits no
notice.  (The trading-status qualifier on the price-range disjunct is the
amendment: a non-trading payload always stores a price-0 record, whatever
its mantissa bytes encode.) -/
theorem sanity_rejection_amended (st : PriceState) (mint : String)
    (data : List Nat) (now : Nat)
    (h : data.length < 240 ∨
         (pythStatus data = 1 ∧ pythPriceRaw data = 0) ∨
         (pythStatus data = 1 ∧
           (pythComputedPrice data ≤ 0 ∨ 10000000 ≤ pythComputedPrice data))) :
    parse_real_pyth_price_account data mint now = none ∧
    price_handle_update st mint data now = (st, none) := by
  have hp : parse_real_pyth_price_account data mint now = none := by
    unfold parse_real_pyth_price_account
    by_cases hl : data.length < 240
    · rw [if_pos hl]
    · rw [if_neg hl, if_neg (by omega)]
      rcases h with h | ⟨hs, hz⟩ | ⟨hs, hrange⟩
      · exact absurd h hl
      · rw [if_neg (by simp [hs]), if_pos hz]
      · rw [if_neg (by simp [hs])]
        dsimp only
        by_cases hz : pythPriceRaw data = 0
        · rw [if_pos hz]
        · rw [if_neg hz, if_neg ?_]
          unfold pythComputedPrice at hrange
          rintro ⟨h1, h2⟩
          rcases hrange with h3 | h3 <;> linarith
  exact ⟨hp, by unfold price_handle_update; rw [hp]⟩

/-- Witness for C4 on a 240-byte trading payload with zero price mantissa. -/
theorem sanity_rejection_witness :
    parse_real_pyth_price_account ((List.replicate 240 0).set 232 1) "m" 0 = none ∧
    price_handle_update (fun _ => none) "m" ((List.replicate 240 0).set 232 1) 0 =
      ((fun _ => none), none) :=
  sanity_rejection_amended (fun _ => none) "m" ((List.replicate 240 0).set 232 1) 0
    (Or.inr (Or.inl ⟨by decide, by decide⟩))

/-- Counterexample for C4 as stated: the all-zero 240-byte payload has a
computed price `0 * 10^0 = 0 ≤ 0`, yet (being non-trading, status 0) the
handler does store an update for the asset. -/
theorem sanity_rejection_counterexample :
    240 ≤ (List.replicate 240 0).length ∧
    pythComputedPrice (List.replicate 240 0) ≤ 0 ∧
    (price_handle_update (fun _ => none) "m" (List.replicate 240 0) 0).1 "m" ≠ none := by
  have h0 : pythPriceRaw (List.replicate 240 0) = 0 := by decide
  refine ⟨by decide, ?_, by decide⟩
  unfold pythComputedPrice
  rw [h0]
  norm_num

/-- C6: when decoding succeeds, the handler always overwrites the stored
record for the asset with the decoded record (and touches no other asset),
independently of the notice; the notice is a change notice with the signed
percentage delta exactly when a previous price existed and moved by more
than 0.001 in absolute value, a first-observation notice exactly when no
previous record existed, and nothing otherwise. -/
theorem price_store_always_overwrites (st : PriceState) (mint : String)
    (data : List Nat) (now : Nat) (info : TokenPrice)
    (h : parse_real_pyth_price_account data mint now = some info) :
    (price_handle_update st mint data now).1 mint = some info ∧
    (∀ m, m ≠ mint → (price_handle_update st mint data now).1 m = st m) ∧
    (price_handle_update st mint data now).2 =
      (match st mint with
       | none => some PriceNotice.firstObservation
       | some old =>
         if |old.price - info.price| > 1 / 1000 then
           some (PriceNotice.change (((info.price - old.price) / old.price) * 100))
         else none) := by
  unfold price_handle_update
  rw [h]
  dsimp only
  cases hso : st mint with
  | none => exact ⟨by simp, fun m hm => by simp [hm], by simp⟩
  | some old =>
    dsimp only [Option.map]
    split_ifs with hc
    · exact ⟨by simp, fun m hm => by simp [hm], rfl⟩
    · exact ⟨by simp, fun m hm => by simp [hm], rfl⟩

/-- Witness for C6: first observation of the concrete trading payload. -/
theorem price_store_always_overwrites_witness :
    (price_handle_update (fun _ => none) "m" pythTestBytes 7).1 "m" =
        some pythTestRecord ∧
    (price_handle_update (fun _ => none) "m" pythTestBytes 7).2 =
        some PriceNotice.firstObservation := by
  have h := price_store_always_overwrites (fun _ => none) "m" pythTestBytes 7
    pythTestRecord parse_pythTestBytes
  exact ⟨h.1, h.2.2⟩

/-- C3: a driver whose feed always fails to connect makes exactly 5
connection attempts (the configured `max_retries`), sleeping the fixed
2-second backoff between consecutive attempts, and then stops permanently:
the (finite) event trace ends at attempt 5 with no further events. -/
theorem retry_budget_exhaustion (connectOk : Nat → Bool)
    (h : ∀ n, connectOk n = false) :
    listener_start_events connectOk =
      [DriverEvent.connectAttempt 1, DriverEvent.sleepBackoff 2,
       DriverEvent.connectAttempt 2, DriverEvent.sleepBackoff 2,
       DriverEvent.connectAttempt 3, DriverEvent.sleepBackoff 2,
       DriverEvent.connectAttempt 4, DriverEvent.sleepBackoff 2,
       DriverEvent.connectAttempt 5] ∧
    countConnectAttempts (listener_start_events connectOk) = 5 := by
  have htrace : listener_start_events connectOk =
      [DriverEvent.connectAttempt 1, DriverEvent.sleepBackoff 2,
       DriverEvent.connectAttempt 2, DriverEvent.sleepBackoff 2,
       DriverEvent.connectAttempt 3, DriverEvent.sleepBackoff 2,
       DriverEvent.connectAttempt 4, DriverEvent.sleepBackoff 2,
       DriverEvent.connectAttempt 5] := by
    unfold listener_start_events
    rw [driver_retry_loop, driver_retry_loop, driver_retry_loop,
        driver_retry_loop, driver_retry_loop]
    simp [h]
  exact ⟨htrace, by rw [htrace]; rfl⟩

/-- Witness for C3 with the constantly failing connect function. -/
theorem retry_budget_exhaustion_witness :
    listener_start_events (fun _ => false) =
      [DriverEvent.connectAttempt 1, DriverEvent.sleepBackoff 2,
       DriverEvent.connectAttempt 2, DriverEvent.sleepBackoff 2,
       DriverEvent.connectAttempt 3, DriverEvent.sleepBackoff 2,
       DriverEvent.connectAttempt 4, DriverEvent.sleepBackoff 2,
       DriverEvent.connectAttempt 5] ∧
    countConnectAttempts (listener_start_events (fun _ => false)) = 5 :=
  retry_budget_exhaustion (fun _ => false) (fun _ => rfl)

/-- C1: per pool (with its two distinct vaults), starting from both
last-updated flags false, updating the base vault then the quote vault (or
the reverse order) settles the pair exactly once: the first update returns
no settlement, the second returns one, both flags are false again
afterwards, and a further single-vault update does not settle again (a
settlement needs both flags to transition false to true once more). -/
theorem barrier_fires_exactly_once (s : ReserveState) (v₁ v₂ : Nat)
    (d₁ d₂ : List Nat)
    (hbq : s.pool.base_vault ≠ s.pool.quote_vault)
    (horder : (v₁ = s.pool.base_vault ∧ v₂ = s.pool.quote_vault) ∨
              (v₁ = s.pool.quote_vault ∧ v₂ = s.pool.base_vault))
    (hb : s.last_updated s.pool.base_vault = false)
    (hq : s.last_updated s.pool.quote_vault = false) :
    (reserve_handle_update s v₁ d₁).2 = Except.ok none ∧
    (∃ stl, (reserve_handle_update (reserve_handle_update s v₁ d₁).1 v₂ d₂).2 =
        Except.ok (some stl)) ∧
    ((reserve_handle_update (reserve_handle_update s v₁ d₁).1 v₂ d₂).1).last_updated
        s.pool.base_vault = false ∧
    ((reserve_handle_update (reserve_handle_update s v₁ d₁).1 v₂ d₂).1).last_updated
        s.pool.quote_vault = false ∧
    ∀ v₃ d₃, (v₃ = s.pool.base_vault ∨ v₃ = s.pool.quote_vault) →
      (reserve_handle_update
        (reserve_handle_update (reserve_handle_update s v₁ d₁).1 v₂ d₂).1 v₃ d₃).2 =
        Except.ok none := by
  have hqb : s.pool.quote_vault ≠ s.pool.base_vault := Ne.symm hbq
  rcases horder with ⟨h1, h2⟩ | ⟨h1, h2⟩ <;> subst h1 <;> subst h2
  · refine ⟨?_, ?_, ?_, ?_, ?_⟩
    · simp [reserve_handle_update, hb, hq, hbq, hqb]
    · simp [reserve_handle_update, hb, hq, hbq, hqb]
    · simp [reserve_handle_update, hb, hq, hbq, hqb]
    · simp [reserve_handle_update, hb, hq, hbq, hqb]
    · rintro v₃ d₃ (h3 | h3) <;> subst h3 <;>
        simp [reserve_handle_update, hb, hq, hbq, hqb]
  · refine ⟨?_, ?_, ?_, ?_, ?_⟩
    · simp [reserve_handle_update, hb, hq, hbq, hqb]
    · simp [reserve_handle_update, hb, hq, hbq, hqb]
    · simp [reserve_handle_update, hb, hq, hbq, hqb]
    · simp [reserve_handle_update, hb, hq, hbq, hqb]
    · rintro v₃ d₃ (h3 | h3) <;> subst h3 <;>
        simp [reserve_handle_update, hb, hq, hbq, hqb]

/-- Witness for C1: base vault 1 then quote vault 2 of a concrete pool. -/
theorem barrier_fires_exactly_once_witness :
    (reserve_handle_update ⟨⟨1, 2, 10, 11, 1000, 2000⟩, fun _ => false⟩ 1
      ((List.replicate 72 0).set 64 100)).2 = Except.ok none ∧
    (∃ stl, (reserve_handle_update
      (reserve_handle_update ⟨⟨1, 2, 10, 11, 1000, 2000⟩, fun _ => false⟩ 1
        ((List.replicate 72 0).set 64 100)).1 2
      ((List.replicate 72 0).set 64 150)).2 = Except.ok (some stl)) := by
  have h := barrier_fires_exactly_once ⟨⟨1, 2, 10, 11, 1000, 2000⟩, fun _ => false⟩
    1 2 ((List.replicate 72 0).set 64 100) ((List.replicate 72 0).set 64 150)
    (by decide) (Or.inl ⟨rfl, rfl⟩) rfl rfl
  exact ⟨h.1, h.2.1⟩

/-- The formula factors through `pctOf`; a NaN second operand is absorbing. -/
lemma pctOf_nan_old (np : FVal) : pctOf FVal.nan np = FVal.nan := by
  cases np <;> rfl

/-- An infinite `old_b/old_a` always yields a NaN percentage. -/
lemma pctOf_inf_old (np : FVal) : pctOf FVal.inf np = FVal.nan := by
  cases np <;> rfl

/-- A NaN new price always yields a NaN percentage. -/
lemma pctOf_nan_new (op : FVal) : pctOf op FVal.nan = FVal.nan := by
  cases op <;> rfl

/-- A zero old price yields a non-finite percentage for every new price. -/
lemma pctOf_zero_old (np : FVal) : FVal.isFinite (pctOf (FVal.fin 0) np) = false := by
  cases np with
  | fin q =>
    simp only [pctOf, FVal.sub, FVal.div, FVal.mul, FVal.isFinite, sub_zero,
      if_pos rfl]
    split_ifs <;> simp_all [FVal.mul, FVal.isFinite]
  | inf => simp [pctOf, FVal.sub, FVal.div, FVal.mul, FVal.isFinite]
  | neginf => simp [pctOf, FVal.sub, FVal.div, FVal.mul, FVal.isFinite]
  | nan => rfl

/-- A nonnegative finite old price with an infinite new price yields a
non-finite percentage. -/
lemma pctOf_pos_old_inf_new (q : ℚ) (hq : 0 ≤ q) :
    FVal.isFinite (pctOf (FVal.fin q) FVal.inf) = false := by
  simp [pctOf, FVal.sub, FVal.div, FVal.mul, FVal.isFinite, not_lt.mpr hq]

/-- Whenever the old base, old quote, or new base reserve amount is zero,
the price-change formula produces an infinite or NaN value, never a finite
number. -/
lemma priceChangePct_not_finite (oldA oldB newA newB : Nat)
    (h : oldA = 0 ∨ oldB = 0 ∨ newA = 0) :
    FVal.isFinite (priceChangePct oldA oldB newA newB) = false := by
  have hpct : priceChangePct oldA oldB newA newB =
      pctOf (FVal.div (FVal.ofAmount oldB) (FVal.ofAmount oldA))
        (FVal.div (FVal.ofAmount newB) (FVal.ofAmount newA)) := rfl
  rw [hpct]
  rcases Nat.eq_zero_or_pos oldA with hA | hA
  · subst hA
    rcases Nat.eq_zero_or_pos oldB with hB | hB
    · subst hB
      have hop : FVal.div (FVal.ofAmount 0) (FVal.ofAmount 0) = FVal.nan := by
        simp [FVal.div, FVal.ofAmount]
      rw [hop, pctOf_nan_old]
      rfl
    · have hop : FVal.div (FVal.ofAmount oldB) (FVal.ofAmount 0) = FVal.inf := by
        have : (0 : ℚ) < (oldB : ℚ) := by exact_mod_cast hB
        simp [FVal.div, FVal.ofAmount, this]
      rw [hop, pctOf_inf_old]
      rfl
  · have hAq : ((oldA : ℚ)) ≠ 0 := by positivity
    rcases Nat.eq_zero_or_pos oldB with hB | hB
    · subst hB
      have hop : FVal.div (FVal.ofAmount 0) (FVal.ofAmount oldA) = FVal.fin 0 := by
        simp [FVal.div, FVal.ofAmount, hAq]
      rw [hop]
      exact pctOf_zero_old _
    · have hnA : newA = 0 := by omega
      subst hnA
      have hq : (0 : ℚ) ≤ (oldB : ℚ) / (oldA : ℚ) := by positivity
      have hop : FVal.div (FVal.ofAmount oldB) (FVal.ofAmount oldA) =
          FVal.fin ((oldB : ℚ) / (oldA : ℚ)) := by
        simp [FVal.div, FVal.ofAmount, hAq]
      rcases Nat.eq_zero_or_pos newB with hB' | hB'
      · subst hB'
        have hnp : FVal.div (FVal.ofAmount 0) (FVal.ofAmount 0) = FVal.nan := by
          simp [FVal.div, FVal.ofAmount]
        rw [hop, hnp, pctOf_nan_new]
        rfl
      · have hnp : FVal.div (FVal.ofAmount newB) (FVal.ofAmount 0) = FVal.inf := by
          have : (0 : ℚ) < (newB : ℚ) := by exact_mod_cast hB'
          simp [FVal.div, FVal.ofAmount, this]
        rw [hop, hnp]
        exact pctOf_pos_old_inf_new _ hq

/-- C8 (amended): for an update to a tracked vault, the handler never
crashes on the arithmetic (it returns `ok`); the settlement's reported
percentage is exactly `((new_b/new_a) - (old_b/old_a)) / (old_b/old_a) *
100` over the reserve amounts before and after the single-side overwrite;
and whenever the old base, old quote, or new base amount is zero the
formula yields an infinite or NaN percentage instead of a crash or a
filtered-out update.  (A zero new quote amount with all other amounts
nonzero instead yields the finite value -100; see the counterexample.) -/
theorem price_change_formula_and_zero_edge (s : ReserveState) (v : Nat)
    (d : List Nat)
    (hv : v = s.pool.base_vault ∨ v = s.pool.quote_vault) :
    (∃ r, (reserve_handle_update s v d).2 = Except.ok r) ∧
    (∀ stl, (reserve_handle_update s v d).2 = Except.ok (some stl) →
      stl.price_change_pct =
        priceChangePct s.pool.mint_a_reserve s.pool.mint_b_reserve
          ((reserve_handle_update s v d).1).pool.mint_a_reserve
          ((reserve_handle_update s v d).1).pool.mint_b_reserve) ∧
    (s.pool.mint_a_reserve = 0 ∨ s.pool.mint_b_reserve = 0 ∨
        ((reserve_handle_update s v d).1).pool.mint_a_reserve = 0 →
      FVal.isFinite (priceChangePct s.pool.mint_a_reserve s.pool.mint_b_reserve
        ((reserve_handle_update s v d).1).pool.mint_a_reserve
        ((reserve_handle_update s v d).1).pool.mint_b_reserve) = false) := by
  have hguard : ¬(v ≠ s.pool.base_vault ∧ v ≠ s.pool.quote_vault) := by
    rcases hv with h | h <;> subst h <;> simp
  refine ⟨?_, ?_, fun h => priceChangePct_not_finite _ _ _ _ h⟩
  · unfold reserve_handle_update
    rw [if_neg hguard]
    dsimp only
    repeat' split
    all_goals exact ⟨_, rfl⟩
  · unfold reserve_handle_update
    rw [if_neg hguard]
    dsimp only
    repeat' split
    all_goals rintro stl hstl
    all_goals simp at hstl
    all_goals subst hstl
    all_goals rfl

/-- Witness for C8: an update leaving a zero base reserve in place gives a
non-finite percentage. -/
theorem price_change_formula_and_zero_edge_witness :
    FVal.isFinite (priceChangePct 0 2000
      ((reserve_handle_update ⟨⟨1, 2, 10, 11, 0, 2000⟩,
        fun _ => false⟩ 1 []).1).pool.mint_a_reserve
      ((reserve_handle_update ⟨⟨1, 2, 10, 11, 0, 2000⟩,
        fun _ => false⟩ 1 []).1).pool.mint_b_reserve) = false :=
  (price_change_formula_and_zero_edge ⟨⟨1, 2, 10, 11, 0, 2000⟩, fun _ => false⟩ 1 []
    (Or.inl rfl)).2.2 (Or.inl rfl)

/-- Counterexample for C8 as stated: updating the quote vault of the pool
(1000, 2000) with amount 0 makes the new quote reserve zero, yet the
settlement carries the finite percentage -100, not an infinite or NaN
value. -/
theorem price_change_zero_counterexample :
    tokenAccountAmount (List.replicate 72 0) = 0 ∧
    (reserve_handle_update ⟨⟨1, 2, 10, 11, 1000, 2000⟩, fun w => w == 1⟩ 2
        (List.replicate 72 0)).2 =
      Except.ok (some { pool_snapshot := ⟨1, 2, 10, 11, 1000, 0⟩,
                        price_change_pct := FVal.fin (-100),
                        pair_key := (10, 11) }) ∧
    FVal.isFinite (FVal.fin (-100)) = true := by
  have hamt : tokenAccountAmount (List.replicate 72 0) = 0 := by decide
  refine ⟨hamt, ?_, rfl⟩
  unfold reserve_handle_update
  rw [if_neg (by decide)]
  dsimp only
  rw [hamt]
  norm_num [priceChangePct, FVal.ofAmount, FVal.div, FVal.sub, FVal.mul]

/-- Membership in a consecutive-dedup is membership in the original list. -/
lemma mem_dedupConsec (l : List Nat) (a : Nat) : a ∈ dedupConsec l ↔ a ∈ l := by
  induction l with
  | nil => simp [dedupConsec]
  | cons b t ih =>
    cases t with
    | nil => simp [dedupConsec]
    | cons c r =>
      rw [dedupConsec]
      split_ifs with hbc
      · subst hbc
        rw [ih]
        simp [List.mem_cons]
      · simp only [List.mem_cons, ih]

/-- A consecutive-dedup keeps the head of a nonempty list. -/
lemma dedupConsec_cons (b : Nat) (t : List Nat) :
    ∃ t', dedupConsec (b :: t) = b :: t' := by
  induction t generalizing b with
  | nil => exact ⟨[], rfl⟩
  | cons c r ih =>
    rw [dedupConsec]
    split_ifs with hbc
    · subst hbc
      exact ih _
    · exact ⟨_, rfl⟩

/-- On a weakly sorted list, removing consecutive duplicates yields a
strictly sorted list. -/
lemma sorted_lt_dedupConsec (l : List Nat) (h : l.Sorted (· ≤ ·)) :
    (dedupConsec l).Sorted (· < ·) := by
  induction l with
  | nil => simp [dedupConsec]
  | cons b t ih =>
    cases t with
    | nil => simp [dedupConsec]
    | cons c r =>
      rw [dedupConsec]
      have hbc : b ≤ c := (List.sorted_cons.mp h).1 c (List.mem_cons_self c r)
      have ht : (c :: r).Sorted (· ≤ ·) := (List.sorted_cons.mp h).2
      split_ifs with hbceq
      · exact ih ht
      · rw [List.sorted_cons]
        refine ⟨?_, ih ht⟩
        intro x hx
        rw [mem_dedupConsec] at hx
        have hcx : c ≤ x := by
          rcases List.mem_cons.mp hx with rfl | hxr
          · exact le_refl x
          · exact (List.sorted_cons.mp ht).1 x hxr
        exact lt_of_lt_of_le (lt_of_le_of_ne hbc hbceq) hcx

/-- C10: `get_reserve_addresses` returns a sorted, duplicate-free list whose
elements are exactly the non-default (nonzero) deposit and borrow reserve
addresses of the obligation. -/
theorem get_reserve_addresses_spec (ob : Obligation) :
    (Obligation.get_reserve_addresses ob).Sorted (· ≤ ·) ∧
    (Obligation.get_reserve_addresses ob).Nodup ∧
    ∀ a, a ∈ Obligation.get_reserve_addresses ob ↔
      (a ≠ 0 ∧ ((∃ d ∈ ob.deposits, d.deposit_reserve = a) ∨
                (∃ b ∈ ob.borrows, b.borrow_reserve = a))) := by
  unfold Obligation.get_reserve_addresses
  dsimp only
  have hsorted := List.sorted_insertionSort (· ≤ ·)
    ((ob.deposits.filter (fun d => d.deposit_reserve ≠ 0)).map
        (fun d => d.deposit_reserve) ++
      (ob.borrows.filter (fun b => b.borrow_reserve ≠ 0)).map
        (fun b => b.borrow_reserve))
  have hlt := sorted_lt_dedupConsec _ hsorted
  refine ⟨hlt.imp (fun hab => le_of_lt hab), hlt.imp (fun hab => ne_of_lt hab), ?_⟩
  intro a
  rw [mem_dedupConsec, (List.perm_insertionSort _ _).mem_iff]
  simp only [List.mem_append, List.mem_map, List.mem_filter, decide_not]
  constructor
  · rintro (⟨d, ⟨hd, hne⟩, rfl⟩ | ⟨b, ⟨hb, hne⟩, rfl⟩)
    · exact ⟨by simpa using hne, Or.inl ⟨d, hd, rfl⟩⟩
    · exact ⟨by simpa using hne, Or.inr ⟨b, hb, rfl⟩⟩
  · rintro ⟨hne, ⟨d, hd, rfl⟩ | ⟨b, hb, rfl⟩⟩
    · exact Or.inl ⟨d, ⟨hd, by simpa using hne⟩, rfl⟩
    · exact Or.inr ⟨b, ⟨hb, by simpa using hne⟩, rfl⟩

/-- Witness for C10 on a concrete obligation with a duplicate deposit
reserve, a default deposit entry and a default borrow entry. -/
theorem get_reserve_addresses_spec_witness :
    (Obligation.get_reserve_addresses
      ⟨[⟨5, 100, 0⟩, ⟨3, 50, 0⟩, ⟨5, 7, 0⟩, ⟨0, 0, 0⟩], [⟨9, 1, 2⟩, ⟨0, 0, 0⟩]⟩).Nodup ∧
    5 ∈ Obligation.get_reserve_addresses
      ⟨[⟨5, 100, 0⟩, ⟨3, 50, 0⟩, ⟨5, 7, 0⟩, ⟨0, 0, 0⟩], [⟨9, 1, 2⟩, ⟨0, 0, 0⟩]⟩ := by
  have h := get_reserve_addresses_spec
    ⟨[⟨5, 100, 0⟩, ⟨3, 50, 0⟩, ⟨5, 7, 0⟩, ⟨0, 0, 0⟩], [⟨9, 1, 2⟩, ⟨0, 0, 0⟩]⟩
  exact ⟨h.2.1, (h.2.2 5).mpr ⟨by decide, Or.inl ⟨⟨5, 100, 0⟩, by simp, rfl⟩⟩⟩
